import Mathlib

/-
Verification of the cluster membership and epoch coordination core of the
sheepdog node daemon (src/sheep/group.c) against its natural-language
specification.  All definitions below are shallow embeddings of the C
functions in group.c; where a helper lives in a header that is not part of
the sources (node_eq, sys_can_recover, protocol constants), the definition
is modelled from the specification and says so in its doc comment.
-/

namespace SheepdogGroup

/-- Modelled from the spec: protocol constant SD_MAX_REDUNDANCY from
sheepdog_proto.h (header not under src).  It is the capacity of the
`zones` scratch array in `get_zones_nr_from`. -/
def SD_MAX_REDUNDANCY : Nat := 8

/-- Modelled from the spec: protocol constant SD_SHEEP_PROTO_VER from
sheep_priv.h (header not under src).  Its concrete value is irrelevant to
every theorem below; only equality with a join message field matters. -/
def SD_SHEEP_PROTO_VER : Nat := 2

/-- A cluster member, `struct sd_node` (spec section 3): 16 address bytes,
a port, a vnode count and a failure zone. -/
structure SdNode where
  addr : List Nat
  port : Nat
  nr_vnodes : Nat
  zone : Nat
deriving DecidableEq

/-- Modelled from the spec: `node_eq` lives in a header not under src;
spec section 3 says two nodes are equal iff `(addr, port)` match. -/
def node_eq (a b : SdNode) : Bool :=
  a.addr == b.addr && a.port == b.port

/-- The cluster status state machine of spec section 4.3
(SD_STATUS_* constants in the C sources). -/
inductive SdStatus where
  | ok
  | waitFormat
  | waitJoin
  | halt
  | shutdown
deriving DecidableEq

/-- Result codes (SD_RES_*) surfaced through join admission. -/
inductive SdRes where
  | success
  | verMismatch
  | invalidCtime
  | oldNodeVer
  | newNodeVer
  | invalidEpoch
  | notFormatted
  | resShutdown
  | eio
deriving DecidableEq

/-- Return values of the driver admission upcall, `enum cluster_join_result`. -/
inductive CJRes where
  | success
  | fail
  | joinLater
  | masterTransfer
deriving DecidableEq

/-! ### Zone counting: `get_zones_nr_from`, `get_max_nr_copies_from`,
`get_nr_copies` (group.c lines 115-153 and 234-237). -/

/-- The scanning loop of `get_zones_nr_from`: walk the node list, skip pure
gateways (`nr_vnodes == 0`), record each unseen zone, and stop as soon as
the scratch array holds `SD_MAX_REDUNDANCY` zones (the `break` after
`++nr_zones == ARRAY_SIZE(zones)`). -/
def zonesScan : List SdNode → List Nat → List Nat
  | [], zones => zones
  | n :: rest, zones =>
    if n.nr_vnodes = 0 then zonesScan rest zones
    else if n.zone ∈ zones then zonesScan rest zones
    else if zones.length + 1 = SD_MAX_REDUNDANCY then zones ++ [n.zone]
    else zonesScan rest (zones ++ [n.zone])

/-- `get_zones_nr_from(nodes, nr_nodes)` from group.c: the number of zones
recorded by the scan starting from an empty scratch array. -/
def get_zones_nr_from (nodes : List SdNode) : Nat :=
  (zonesScan nodes []).length

/-- Specification-side measure: the number of distinct zone values among
members that actually store data (`nr_vnodes > 0`). -/
def distinctZonesNr (nodes : List SdNode) : Nat :=
  ((nodes.filter (fun n => n.nr_vnodes != 0)).map (fun n => n.zone)).toFinset.card

/-- `struct vnode_info` (the placement ring entries are irrelevant to the
claims below, only the counters are used). -/
structure VnodeInfo where
  nr_vnodes : Nat
  nr_zones : Nat
deriving DecidableEq

/-- `get_nr_copies(vnode_info)` from group.c line 234:
`min(vnode_info->nr_zones, sys->nr_copies)`.  The configured copy count
`sys->nr_copies` is passed explicitly. -/
def get_nr_copies (sys_nr_copies : Nat) (vi : VnodeInfo) : Nat :=
  min vi.nr_zones sys_nr_copies

/-- `get_max_nr_copies_from(nodes, nr_nodes)` from group.c line 150:
`min((int)sys->nr_copies, get_zones_nr_from(nodes, nr_nodes))`. -/
def get_max_nr_copies_from (sys_nr_copies : Nat) (nodes : List SdNode) : Nat :=
  min sys_nr_copies (get_zones_nr_from nodes)

/-! ### Majority probing: `check_majority` and `__sd_leave`
(group.c lines 738-805). -/

/-- The probe loop of `check_majority`: `reachable` abstracts the
`connect_to` TCP probe.  The counter check happens right after a successful
probe increments it (`if (nr_reachable >= nr_majority) return 1`). -/
def check_majority_go (reachable : SdNode → Bool) (maj : Nat) :
    List SdNode → Nat → Bool
  | [], _ => false
  | n :: rest, cnt =>
    if reachable n then
      if maj ≤ cnt + 1 then true
      else check_majority_go reachable maj rest (cnt + 1)
    else check_majority_go reachable maj rest cnt

/-- `check_majority(nodes, nr_nodes)` from group.c line 738:
`nr_majority = nr_nodes / 2 + 1`; fewer than 3 nodes always pass. -/
def check_majority (reachable : SdNode → Bool) (nodes : List SdNode) : Bool :=
  if nodes.length < 3 then true
  else check_majority_go reachable (nodes.length / 2 + 1) nodes 0

/-- `__sd_leave` (group.c line 797) calls `abort()` exactly when
`check_majority` on the remaining member list returns 0. -/
def sd_leave_aborts (reachable : SdNode → Bool) (members : List SdNode) : Bool :=
  ! check_majority reachable members

/-! ### Local node state

The pieces of the global `sys` structure (and of the on-disk epoch log and
config file) that the admission path reads.  `epochLog e` stands for
`epoch_log_read_nr(e, ...)`, `latest_epoch` for `get_latest_epoch()`,
`cluster_ctime` for `get_cluster_ctime()`, and the `disk_*` fields for the
outcome of `read_epoch` in the self branch of `sd_check_join_cb`. -/
structure Sys where
  this_node : SdNode
  nodes : List SdNode
  leave_list : List SdNode
  epoch : Nat
  latest_epoch : Nat
  epochLog : Nat → List SdNode
  cluster_ctime : Nat
  status : SdStatus
  nr_copies : Nat
  flags : Nat
  store : String
  read_epoch_ok : Bool
  disk_epoch : Nat
  disk_ctime : Nat
  disk_entries : List SdNode

/-- Modelled from the spec: `sys_can_recover` is a one-line helper in
sheep_priv.h (not under src); spec section 4.3 defines it as
`status ∈ {Ok, Halt}`. -/
def sys_can_recover (st : Sys) : Bool :=
  match st.status with
  | SdStatus.ok => true
  | SdStatus.halt => true
  | _ => false

/-- `cluster_sanity_check(entries, nr_entries, ctime, epoch)` from group.c
line 385.  The checks appear in source order: skip everything when the
local status is WaitFormat or Shutdown, skip for a freshly created joiner
(`nr_entries == 0`), then compare ctime, then the epochs, then the member
list against the local epoch log entry.  The list `entries` carries its own
length (the C function receives the pair `entries, nr_entries`). -/
def cluster_sanity_check (st : Sys) (entries : List SdNode)
    (ctime epoch : Nat) : SdRes :=
  if st.status = SdStatus.waitFormat ∨ st.status = SdStatus.shutdown then
    SdRes.success
  else if entries.length = 0 then SdRes.success
  else if ctime ≠ st.cluster_ctime then SdRes.invalidCtime
  else if st.latest_epoch < epoch then SdRes.oldNodeVer
  else if sys_can_recover st then SdRes.success
  else if epoch < st.latest_epoch then SdRes.newNodeVer
  else if entries ≠ st.epochLog epoch then SdRes.invalidEpoch
  else SdRes.success

/-- Output triple of `get_cluster_status`: the returned SD_RES code and the
values written through the `status` and `inc_epoch` out-parameters. -/
structure ClusterStatusOut where
  ret : SdRes
  status : SdStatus
  inc_epoch : Bool
deriving DecidableEq

/-- `get_cluster_status(from, entries, nr_entries, ctime, epoch, status,
inc_epoch)` from group.c line 430.  `*status` is initialised to the current
status and `*inc_epoch` to 0; on a sanity-check failure both keep those
values.  In the WAIT_FOR_JOIN branch with `nr == nr_local_entries` the C
code runs a membership loop whose outcome is discarded (every exit falls
through to `*status = SD_STATUS_OK`), so the `from` parameter does not
influence the result. -/
def get_cluster_status (st : Sys) (_from : SdNode) (entries : List SdNode)
    (ctime epoch : Nat) : ClusterStatusOut :=
  let ret := cluster_sanity_check st entries ctime epoch
  if ret ≠ SdRes.success then ⟨ret, st.status, false⟩
  else
    match st.status with
    | SdStatus.halt => ⟨SdRes.success, st.status, true⟩
    | SdStatus.ok => ⟨SdRes.success, st.status, true⟩
    | SdStatus.waitFormat =>
      if entries.length ≠ 0 then ⟨SdRes.notFormatted, st.status, false⟩
      else ⟨SdRes.success, st.status, false⟩
    | SdStatus.waitJoin =>
      let nr := st.nodes.length + 1
      let nr_local := (st.epochLog epoch).length
      if nr ≠ nr_local then
        if nr_local = nr + st.leave_list.length then
          ⟨SdRes.success, SdStatus.ok, true⟩
        else ⟨SdRes.success, st.status, false⟩
      else ⟨SdRes.success, SdStatus.ok, false⟩
    | SdStatus.shutdown => ⟨SdRes.resShutdown, st.status, false⟩

/-- `struct join_message` from group.c line 41.  The C struct ends in a
union of `nodes[]` and `leave_nodes[]` over the same bytes; the single
`nodes` list models that shared payload (it is read as the candidate member
list and overwritten with the leave list on the master side). -/
structure JoinMessage where
  proto_ver : Nat
  nr_copies : Nat
  nr_nodes : Nat
  nr_leave_nodes : Nat
  cluster_flags : Nat
  cluster_status : SdStatus
  epoch : Nat
  ctime : Nat
  result : SdRes
  inc_epoch : Bool
  store : String
  nodes : List SdNode
deriving DecidableEq

/-- Result of the admission upcall: the returned `cluster_join_result`, the
join message as mutated by `sd_check_join_cb`, and the value of
`sys->epoch` afterwards (only the self branch writes it). -/
structure CheckJoinOut where
  res : CJRes
  jm : JoinMessage
  epoch_after : Nat
deriving DecidableEq

/-- The tail of `sd_check_join_cb` (group.c line 871): `jm->epoch =
sys->epoch` followed by the switch on `jm->result`. -/
def check_join_finish (st : Sys) (jm : JoinMessage) : CheckJoinOut :=
  let jm := { jm with epoch := st.epoch }
  match jm.result with
  | SdRes.success => ⟨CJRes.success, jm, st.epoch⟩
  | SdRes.oldNodeVer => ⟨CJRes.joinLater, jm, st.epoch⟩
  | SdRes.newNodeVer => ⟨CJRes.joinLater, jm, st.epoch⟩
  | _ => ⟨CJRes.fail, jm, st.epoch⟩

/-- `sd_check_join_cb(joining, opaque)` from group.c line 807.  The self
branch reads the local epoch log (`read_epoch`, abstracted by the `disk_*`
fields) and always returns CJ_RES_SUCCESS; for other candidates the
message is populated from `get_cluster_status` and the local state, the
leave list is copied into the payload when the join succeeded into a
not-yet-Ok cluster, and the master-transfer branch fires on a failed
result when the candidate is ahead of `sys->epoch` and the local status is
WAIT_FOR_JOIN (it returns before `jm->epoch` is overwritten). -/
def sd_check_join_cb (st : Sys) (joining : SdNode) (jm : JoinMessage) :
    CheckJoinOut :=
  if jm.proto_ver ≠ SD_SHEEP_PROTO_VER then
    ⟨CJRes.fail, { jm with result := SdRes.verMismatch }, st.epoch⟩
  else if node_eq joining st.this_node then
    if st.read_epoch_ok then
      ⟨CJRes.success,
        { jm with ctime := st.disk_ctime,
                  cluster_status :=
                    (get_cluster_status { st with epoch := st.disk_epoch }
                      joining st.disk_entries st.disk_ctime
                      st.disk_epoch).status },
        st.disk_epoch⟩
    else
      ⟨CJRes.success, { jm with cluster_status := SdStatus.waitFormat },
        st.epoch⟩
  else
    let out := get_cluster_status st joining jm.nodes jm.ctime jm.epoch
    let jm1 := { jm with
      result := out.ret, cluster_status := out.status,
      inc_epoch := out.inc_epoch, nr_copies := st.nr_copies,
      cluster_flags := st.flags, ctime := st.cluster_ctime,
      nr_leave_nodes := 0,
      store := if st.store.length = 0 then jm.store else st.store }
    if jm1.result = SdRes.success ∧ jm1.cluster_status ≠ SdStatus.ok then
      check_join_finish st
        { jm1 with nodes := st.leave_list,
                   nr_leave_nodes := st.leave_list.length }
    else if jm1.result ≠ SdRes.success ∧ st.epoch < jm1.epoch ∧
        jm1.cluster_status = SdStatus.waitJoin then
      ⟨CJRes.masterTransfer, jm1, st.epoch⟩
    else check_join_finish st jm1

/-! ### Join message size (group.c lines 108-113). -/

/-- Modelled from the spec: `sizeof(struct sd_node)` (16 address bytes, a
u16 port, a u16 vnode count and a u32 zone; the struct is declared in
sheepdog_proto.h, not under src). -/
def sizeof_sd_node : Nat := 24

/-- Modelled from the spec: `sizeof(struct join_message)`, the fixed header
of the wire layout in spec section 6 (fields plus alignment padding). -/
def sizeof_join_message : Nat := 48

/-- `get_join_message_size(jm)` from group.c line 108: the code uses only
`jm->nr_nodes`, justified by the comment that `jm->nr_nodes` is always
larger than `jm->nr_leave_nodes`. -/
def get_join_message_size (jm : JoinMessage) : Nat :=
  sizeof_join_message + jm.nr_nodes * sizeof_sd_node

/-- Specification-side size from spec section 6: receivers compute
`sizeof(header) + max(nr_nodes, nr_leave_nodes) * sizeof(Node)`. -/
def join_message_size_spec (jm : JoinMessage) : Nat :=
  sizeof_join_message + max jm.nr_nodes jm.nr_leave_nodes * sizeof_sd_node

/-! ### Peer join failure handling: the CJ_RES_FAIL / CJ_RES_JOIN_LATER arm
of `sd_join_handler` (group.c lines 1216-1243). -/

/-- `find_entry_list(entry, head)` from group.c line 358: membership of
`entry` in a list of nodes, compared with `node_eq`. -/
def find_entry_list (entry : SdNode) (head : List SdNode) : Bool :=
  head.any (fun n => node_eq n entry)

/-- `find_entry_epoch(entry, epoch)` from group.c line 370: membership of
`entry` in the epoch log record for `epoch`. -/
def find_entry_epoch (st : Sys) (entry : SdNode) (epoch : Nat) : Bool :=
  (st.epochLog epoch).any (fun n => node_eq n entry)

/-- Observable outcome of the failure arm of `sd_join_handler`: whether the
process exited, the leave list afterwards, the status afterwards, and the
`update_epoch_log` calls performed (epoch paired with the node list
written). -/
structure JoinHandlerOut where
  exited : Bool
  leave_list : List SdNode
  status : SdStatus
  log_writes : List (Nat × List SdNode)
deriving DecidableEq

/-- The CJ_RES_FAIL / CJ_RES_JOIN_LATER arm of `sd_join_handler` (group.c
line 1216), including the self check at the top of the handler (a rejected
self join exits the process).  For a peer: nothing happens unless the local
status is WAIT_FOR_JOIN; the peer is appended to the leave list unless it
is already there or absent from the latest epoch record; and only after an
append are `nr_local == nr + nr_leave` compared and, on equality, the
status flipped to Ok and `update_epoch_log(sys->epoch, sys->nodes, ...)`
issued. -/
def sd_join_handler_fail (st : Sys) (joined : SdNode) (nr_members : Nat) :
    JoinHandlerOut :=
  if node_eq joined st.this_node then ⟨true, st.leave_list, st.status, []⟩
  else if st.status ≠ SdStatus.waitJoin then
    ⟨false, st.leave_list, st.status, []⟩
  else if find_entry_list joined st.leave_list = true ∨
      find_entry_epoch st joined st.latest_epoch = false then
    ⟨false, st.leave_list, st.status, []⟩
  else
    let ll := st.leave_list ++ [joined]
    let nr_local := (st.epochLog st.epoch).length
    if nr_local = nr_members + ll.length then
      ⟨false, ll, SdStatus.ok, [(st.epoch, st.nodes)]⟩
    else ⟨false, ll, st.status, []⟩

/-! ### The Join event handler `__sd_join` (group.c lines 768-795). -/

/-- The fetch loop of `__sd_join`: self is skipped, `get_vdi_bitmap_from`
is invoked on every other member reached, and with local status
WAIT_FOR_FORMAT the loop breaks right after the first such call.  The C
code discards the return value of `get_vdi_bitmap_from`, which is why the
result does not depend on the `fetchOk` oracle standing for that network
call succeeding. -/
def get_vdi_bitmap_loop (fetchOk : SdNode → Bool) (localStatus : SdStatus)
    (self : SdNode) : List SdNode → List SdNode
  | [] => []
  | n :: rest =>
    if node_eq n self then get_vdi_bitmap_loop fetchOk localStatus self rest
    else if localStatus = SdStatus.waitFormat then [n]
    else n :: get_vdi_bitmap_loop fetchOk localStatus self rest

/-- `__sd_join` (group.c line 768), returning the list of peers whose VDI
bitmap is fetched, in order: nothing is fetched unless the message status
is Ok or Halt, nothing is fetched when the local status is already Ok. -/
def sd_join_fetches (fetchOk : SdNode → Bool) (localStatus msgStatus : SdStatus)
    (self : SdNode) (members : List SdNode) : List SdNode :=
  if msgStatus ≠ SdStatus.ok ∧ msgStatus ≠ SdStatus.halt then []
  else if localStatus = SdStatus.ok then []
  else get_vdi_bitmap_loop fetchOk localStatus self members

/-! ### The event serializer (group.c lines 976-1151)

State of the serializer: the event queue `sys->event_queue`, the client
request queue `sys->request_queue`, the flag `event_running`, the pointer
`sys->cur_cevent`, the counter `sys->nr_outstanding_io`, and the list of
events whose handler has been handed to `queue_work` but whose done
callback has not yet run (the events currently executing; this is the
instrumentation the serialization claims quantify over).  Events are
abstracted to identifiers; requests to their dispatch class in
`process_request_queue`. -/

/-- The three request classes distinguished by `process_request_queue`
(group.c line 1089): object I/O, cluster ops, local ops.  Only I/O requests
touch `sys->nr_outstanding_io`. -/
inductive ReqKind where
  | ioOp
  | clusterOp
  | localOp
deriving DecidableEq

/-- Serializer state (see the section comment). -/
structure EState where
  event_queue : List Nat
  request_queue : List ReqKind
  event_running : Bool
  cur_cevent : Option Nat
  nr_outstanding_io : Nat
  running_events : List Nat
deriving DecidableEq

/-- `process_event_queue` (group.c line 1121): return immediately when an
event is running or object I/O is outstanding, otherwise pop the head of
the event queue, store it in `cur_cevent`, raise `event_running` and hand
the handler to the work queue (the popped event joins `running_events`).
The C function is only called with a non-empty queue; an empty queue is
totalised as a no-op. -/
def process_event_queue (s : EState) : EState :=
  if s.event_running = true ∨ s.nr_outstanding_io ≠ 0 then s
  else
    match s.event_queue with
    | [] => s
    | e :: rest =>
      { s with event_queue := rest, cur_cevent := some e,
               event_running := true,
               running_events := s.running_events ++ [e] }

/-- The `sys->nr_outstanding_io` increments performed by
`process_request_queue` while draining: one per I/O request. -/
def drainRequests : List ReqKind → Nat → Nat
  | [], k => k
  | ReqKind.ioOp :: rest, k => drainRequests rest (k + 1)
  | ReqKind.clusterOp :: rest, k => drainRequests rest k
  | ReqKind.localOp :: rest, k => drainRequests rest k

/-- `process_request_queue` (group.c line 1089): every queued request is
removed and dispatched; each I/O request moves to the outstanding list and
bumps `sys->nr_outstanding_io`. -/
def process_request_queue (s : EState) : EState :=
  { s with request_queue := [],
           nr_outstanding_io := drainRequests s.request_queue s.nr_outstanding_io }

/-- `process_request_event_queues` (group.c line 1145): events take
priority; the request queue is drained only when the event queue is
empty. -/
def process_request_event_queues (s : EState) : EState :=
  if s.event_queue = [] then process_request_queue s
  else process_event_queue s

/-- `event_done` (group.c line 1002): clear `cur_cevent` (the finished
event leaves `running_events`), drop `event_running`, then re-evaluate the
queues. -/
def event_done (s : EState) : EState :=
  process_request_event_queues
    { s with cur_cevent := none, event_running := false,
             running_events := s.running_events.drop 1 }

/-- The steps that drive the serializer, matching its entry points:
a driver delivery enqueues an event and re-evaluates (`sd_notify_handler`,
`sd_join_handler`, `sd_leave_handler` all end with `list_add_tail` plus
`process_request_event_queues`); a client request is queued by code outside
group.c; a finished I/O decrements the counter and re-evaluates (the spec
section 4.6 rule runs whenever either counter changes); the worker
completion of the running event runs `event_done`. -/
inductive EStep : EState → EState → Prop where
  | deliver_event (s : EState) (e : Nat) :
      EStep s (process_request_event_queues
        { s with event_queue := s.event_queue ++ [e] })
  | client_request (s : EState) (k : ReqKind) :
      EStep s { s with request_queue := s.request_queue ++ [k] }
  | io_done (s : EState) (h : s.nr_outstanding_io ≠ 0) :
      EStep s (process_request_event_queues
        { s with nr_outstanding_io := s.nr_outstanding_io - 1 })
  | work_done (s : EState) (h : s.event_running = true) :
      EStep s (event_done s)

/-- The serializer state installed by `create_cluster` (group.c line 1341):
empty queues, no running event, no outstanding I/O. -/
def EInit : EState := ⟨[], [], false, none, 0, []⟩

/-- States reachable from the initial serializer state. -/
inductive EReachable : EState → Prop where
  | init : EReachable EInit
  | step {s t : EState} : EReachable s → EStep s t → EReachable t

/-- The serialization invariant: the `event_running` flag tracks whether an
event is executing, at most one event executes at a time, and no event
executes while object I/O is outstanding. -/
def EInv (s : EState) : Prop :=
  (s.event_running = true ↔ s.running_events ≠ []) ∧
  s.running_events.length ≤ 1 ∧
  (s.event_running = true → s.nr_outstanding_io = 0)

/-! ### Concrete nodes and states used to instantiate the theorems. -/

/-- The local node of the example states. -/
def selfNode : SdNode := ⟨[0], 0, 1, 0⟩

/-- A peer distinct from `selfNode`. -/
def peerA : SdNode := ⟨[1], 1, 1, 1⟩

/-- Another peer, distinct from both `selfNode` and `peerA`. -/
def peerB : SdNode := ⟨[2], 2, 1, 2⟩

/-- A default local state all example states are built from. -/
def baseSys : Sys :=
  { this_node := selfNode, nodes := [], leave_list := [], epoch := 0,
    latest_epoch := 0, epochLog := fun _ => [], cluster_ctime := 0,
    status := SdStatus.waitJoin, nr_copies := 3, flags := 0, store := "",
    read_epoch_ok := false, disk_epoch := 0, disk_ctime := 0,
    disk_entries := [] }

/-- Five data-holding nodes used by the majority counterexample. -/
def cexNodes5 : List SdNode :=
  [⟨[0], 0, 1, 0⟩, ⟨[0], 1, 1, 0⟩, ⟨[0], 2, 1, 0⟩, ⟨[0], 3, 1, 0⟩,
   ⟨[0], 4, 1, 0⟩]

/-- A reachability oracle under which exactly the first three of
`cexNodes5` answer the TCP probe. -/
def cexReach : SdNode → Bool := fun n => decide (n.port < 3)

/-- Nine data-holding nodes in nine distinct zones, one more zone than the
scratch array of `get_zones_nr_from` can record. -/
def cexNodes9 : List SdNode :=
  [⟨[0], 0, 1, 0⟩, ⟨[0], 1, 1, 1⟩, ⟨[0], 2, 1, 2⟩, ⟨[0], 3, 1, 3⟩,
   ⟨[0], 4, 1, 4⟩, ⟨[0], 5, 1, 5⟩, ⟨[0], 6, 1, 6⟩, ⟨[0], 7, 1, 7⟩,
   ⟨[0], 8, 1, 8⟩]

/-- Local state for the C5 counterexample: WaitFormat status with a logged
history, so the sanity check is skipped. -/
def sysC5 : Sys :=
  { baseSys with status := SdStatus.waitFormat, latest_epoch := 5,
                 epoch := 9, cluster_ctime := 3 }

/-- Candidate message for the C5 counterexample: matching protocol and
ctime, non-empty member list, epoch strictly below the latest local
epoch. -/
def jmC5 : JoinMessage :=
  { proto_ver := SD_SHEEP_PROTO_VER, nr_copies := 0, nr_nodes := 1,
    nr_leave_nodes := 0, cluster_flags := 0,
    cluster_status := SdStatus.waitJoin, epoch := 4, ctime := 3,
    result := SdRes.success, inc_epoch := false, store := "",
    nodes := [peerA] }

/-- Local state for the C5 witness: WaitJoin with the local epoch counter
at the latest logged epoch. -/
def sysC5w : Sys :=
  { baseSys with status := SdStatus.waitJoin, latest_epoch := 5,
                 epoch := 5, cluster_ctime := 3 }

/-- Candidate message for the C5 witness: stale epoch 4 against latest
epoch 5. -/
def jmC5w : JoinMessage := { jmC5 with epoch := 4 }

/-- Local state for the C6 counterexample and witness: WaitJoin, local
epoch 5, latest logged epoch 6 (a restart holding older state than the
candidate). -/
def sysC6 : Sys :=
  { baseSys with status := SdStatus.waitJoin, epoch := 5,
                 latest_epoch := 6, cluster_ctime := 7 }

/-- C6 counterexample message: mismatched protocol version, but candidate
epoch above the local epoch. -/
def jmC6 : JoinMessage := { jmC5 with proto_ver := 99, epoch := 6, ctime := 7 }

/-- C6 witness message: matching protocol, mismatched ctime (so admission
fails), candidate epoch above the local epoch. -/
def jmC6w : JoinMessage := { jmC5 with epoch := 6, ctime := 8 }

/-- Local state for the C7 bug demonstration: a WaitJoin cluster with one
current member, one node in the leave list, and a four-node epoch record,
so admission succeeds while the status stays WaitJoin. -/
def sysC7 : Sys :=
  { baseSys with status := SdStatus.waitJoin, nodes := [⟨[3], 3, 1, 3⟩],
                 leave_list := [⟨[4], 4, 1, 4⟩],
                 epochLog := fun _ =>
                   [⟨[5], 5, 1, 5⟩, ⟨[6], 6, 1, 6⟩, ⟨[7], 7, 1, 7⟩,
                    ⟨[8], 8, 1, 8⟩] }

/-- C7 message: a freshly created candidate (empty member list,
`nr_nodes == 0`). -/
def jmC7 : JoinMessage :=
  { jmC5 with nr_nodes := 0, nodes := [], epoch := 0, ctime := 0 }

/-- Local state for the C9 counterexample: status Ok (not WaitJoin), with
`peerB` recorded in the latest epoch entry and absent from the leave
list. -/
def sysC9 : Sys :=
  { baseSys with status := SdStatus.ok, latest_epoch := 3,
                 epochLog := fun _ => [peerB] }

/-- Local state for the C9 witness: WaitJoin, one-node epoch record that
`peerA` belongs to, empty leave list, so adding the peer reconstitutes the
epoch count with an empty member view. -/
def sysC9w : Sys :=
  { baseSys with status := SdStatus.waitJoin, latest_epoch := 2,
                 epoch := 2, epochLog := fun _ => [peerA] }

/-! ### Claim C3: effective replication degree. -/

/-- Claim C3: for every vnode-info snapshot `vi` and node list,
`get_nr_copies vi` equals `min(configured nr_copies, vi.nr_zones)` and
`get_max_nr_copies_from nodes` equals `min(configured nr_copies, zones
counted from that node list)`. -/
theorem nr_copies_spec :
    ∀ (conf : Nat) (vi : VnodeInfo) (nodes : List SdNode),
      get_nr_copies conf vi = min conf vi.nr_zones ∧
      get_max_nr_copies_from conf nodes =
        min conf (get_zones_nr_from nodes) := by
  intro conf vi nodes
  exact ⟨Nat.min_comm _ _, rfl⟩

/-! ### Claim C4: majority probing on Leave. -/

/-- The probe loop succeeds exactly when the reachable nodes in the
remainder of the list bring the running count up to the majority
threshold. -/
lemma check_majority_go_iff (r : SdNode → Bool) (maj : Nat) :
    ∀ (l : List SdNode) (cnt : Nat), cnt < maj →
      (check_majority_go r maj l cnt = true ↔ maj ≤ cnt + l.countP r) := by
  intro l
  induction l with
  | nil =>
    intro cnt h
    simp [check_majority_go]
    omega
  | cons n rest ih =>
    intro cnt h
    by_cases hr : r n = true
    · by_cases hm : maj ≤ cnt + 1
      · simp [check_majority_go, hr, hm, List.countP_cons]
        omega
      · have hrec := ih (cnt + 1) (by omega)
        simp [check_majority_go, hr, hm, List.countP_cons, hrec]
        omega
    · have hrec := ih cnt h
      simp [check_majority_go, hr, List.countP_cons, hrec]

/-- Claim C4 (amended): `__sd_leave` never aborts for fewer than three
remaining members, and for at least three members it aborts exactly when
fewer than `⌊nr/2⌋ + 1` members are reachable (the code computes the
majority with integer division, not with a ceiling). -/
theorem leave_majority_spec (r : SdNode → Bool) (l : List SdNode) :
    (l.length < 3 → sd_leave_aborts r l = false) ∧
    (3 ≤ l.length →
      (sd_leave_aborts r l = true ↔ l.countP r < l.length / 2 + 1)) := by
  constructor
  · intro h
    simp [sd_leave_aborts, check_majority, h]
  · intro h
    have hlt : ¬ l.length < 3 := by omega
    have hiff := check_majority_go_iff r (l.length / 2 + 1) l 0 (by omega)
    simp only [sd_leave_aborts, check_majority, if_neg hlt,
      Bool.not_eq_true', Bool.eq_false_iff, ne_eq, hiff]
    omega

/-- Claim C4 counterexample: five members of which exactly three are
reachable.  Three is below the ceiling majority `⌈5/2⌉ + 1 = 4` the claim
uses, yet the handler does not abort (the code requires only
`⌊5/2⌋ + 1 = 3` reachable members). -/
theorem leave_majority_ceil_cex :
    cexNodes5.length = 5 ∧
    cexNodes5.countP cexReach = 3 ∧
    cexNodes5.countP cexReach < (cexNodes5.length + 1) / 2 + 1 ∧
    sd_leave_aborts cexReach cexNodes5 = false := by decide

/-- Claim C4 witness: the amended statement evaluated at two members (no
abort regardless of reachability) and at five unreachable members (abort). -/
theorem leave_majority_spec_witness :
    sd_leave_aborts (fun _ => false) [⟨[0], 0, 1, 0⟩, ⟨[0], 1, 1, 0⟩] = false ∧
    sd_leave_aborts (fun _ => false) cexNodes5 = true :=
  ⟨(leave_majority_spec (fun _ => false) _).1 (by decide),
   ((leave_majority_spec (fun _ => false) cexNodes5).2 (by decide)).mpr
     (by decide)⟩

/-! ### Claim C8: the VDI bitmap fetch loop of `__sd_join`. -/

/-- With local status WAIT_FOR_FORMAT the loop visits only the first
non-self member. -/
lemma get_vdi_bitmap_loop_wait_format (fOk : SdNode → Bool) (self : SdNode) :
    ∀ l : List SdNode,
      get_vdi_bitmap_loop fOk SdStatus.waitFormat self l =
        (l.filter (fun n => ! node_eq n self)).take 1 := by
  intro l
  induction l with
  | nil => rfl
  | cons n rest ih =>
    by_cases h : node_eq n self = true
    · simp [get_vdi_bitmap_loop, h, List.filter_cons, ih]
    · simp [get_vdi_bitmap_loop, h, List.filter_cons]

/-- With any other local status the loop visits every non-self member. -/
lemma get_vdi_bitmap_loop_all (fOk : SdNode → Bool) (ls : SdStatus)
    (self : SdNode) (hls : ls ≠ SdStatus.waitFormat) :
    ∀ l : List SdNode,
      get_vdi_bitmap_loop fOk ls self l =
        l.filter (fun n => ! node_eq n self) := by
  intro l
  induction l with
  | nil => rfl
  | cons n rest ih =>
    by_cases h : node_eq n self = true
    · simp [get_vdi_bitmap_loop, h, List.filter_cons, ih]
    · simp [get_vdi_bitmap_loop, h, hls, List.filter_cons, ih]

/-- Claim C8 (amended): when the delivered message carries status Ok or
Halt and the local status is not Ok, the Join handler fetches the VDI
bitmap from the non-self members in delivery order, except that with local
status WaitFormat it stops after the first fetch attempt whether or not
that fetch succeeded; in all other situations it fetches nothing. -/
theorem vdi_bitmap_fetch_spec (fOk : SdNode → Bool)
    (ls ms : SdStatus) (self : SdNode) (members : List SdNode) :
    sd_join_fetches fOk ls ms self members =
      if (ms = SdStatus.ok ∨ ms = SdStatus.halt) ∧ ls ≠ SdStatus.ok then
        if ls = SdStatus.waitFormat then
          (members.filter (fun n => ! node_eq n self)).take 1
        else members.filter (fun n => ! node_eq n self)
      else [] := by
  by_cases hm : ms = SdStatus.ok ∨ ms = SdStatus.halt
  · have hg : ¬(ms ≠ SdStatus.ok ∧ ms ≠ SdStatus.halt) := by tauto
    by_cases hok : ls = SdStatus.ok
    · rw [if_neg (by tauto :
        ¬((ms = SdStatus.ok ∨ ms = SdStatus.halt) ∧ ls ≠ SdStatus.ok))]
      simp [sd_join_fetches, hok]
    · rw [if_pos (And.intro hm hok)]
      by_cases hwf : ls = SdStatus.waitFormat
      · subst hwf
        simp [sd_join_fetches, hg, hok, get_vdi_bitmap_loop_wait_format]
      · rw [if_neg hwf]
        simp [sd_join_fetches, hg, hok, get_vdi_bitmap_loop_all fOk ls self hwf]
  · have hmm : ms ≠ SdStatus.ok ∧ ms ≠ SdStatus.halt := by tauto
    simp [sd_join_fetches, hmm, hm]

/-- Claim C8 counterexample: two non-self peers, every fetch failing, local
status WaitFormat.  The handler contacts only the first peer and never
tries the second, although the first fetch did not succeed, so a failed
fetch does stop the iteration. -/
theorem vdi_bitmap_fetch_cex :
    node_eq peerA selfNode = false ∧ node_eq peerB selfNode = false ∧
    sd_join_fetches (fun _ => false) SdStatus.waitFormat SdStatus.ok
      selfNode [peerA, peerB] = [peerA] := by decide

/-! ### Claim C10: the sanity check is skipped for fresh joiners. -/

/-- Claim C10: `cluster_sanity_check` returns Success without looking at
ctime, epoch or member lists whenever the candidate list is empty or the
local status is WaitFormat or Shutdown; hence a freshly created node
(empty list) is never rejected with InvalidCTime, OldNodeVer, NewNodeVer
or InvalidEpoch. -/
theorem fresh_join_sanity_skip (st : Sys) (entries : List SdNode)
    (ctime epoch : Nat) :
    ((st.status = SdStatus.waitFormat ∨ st.status = SdStatus.shutdown ∨
        entries = []) →
      cluster_sanity_check st entries ctime epoch = SdRes.success) ∧
    (entries = [] → ∀ joining : SdNode,
      (get_cluster_status st joining entries ctime epoch).ret ≠
        SdRes.invalidCtime ∧
      (get_cluster_status st joining entries ctime epoch).ret ≠
        SdRes.oldNodeVer ∧
      (get_cluster_status st joining entries ctime epoch).ret ≠
        SdRes.newNodeVer ∧
      (get_cluster_status st joining entries ctime epoch).ret ≠
        SdRes.invalidEpoch) := by
  have hskip : st.status = SdStatus.waitFormat ∨ st.status = SdStatus.shutdown ∨
      entries = [] → cluster_sanity_check st entries ctime epoch =
        SdRes.success := by
    intro h
    rcases h with h | h | h
    · simp [cluster_sanity_check, h]
    · simp [cluster_sanity_check, h]
    · subst h
      by_cases hs : st.status = SdStatus.waitFormat ∨
          st.status = SdStatus.shutdown
      · simp [cluster_sanity_check, hs]
      · simp [cluster_sanity_check, hs]
  refine ⟨hskip, ?_⟩
  intro h joining
  subst h
  have hcs := hskip (Or.inr (Or.inr rfl))
  cases hst : st.status
  all_goals simp [get_cluster_status, hcs, hst]
  all_goals (try split)
  all_goals (try split)
  all_goals simp_all

/-- Claim C10 witness: the skip evaluated at a WaitFormat state and the
rejection-freedom evaluated for a fresh candidate against the base
state. -/
theorem fresh_join_sanity_skip_witness :
    cluster_sanity_check { baseSys with status := SdStatus.waitFormat }
      [] 0 0 = SdRes.success ∧
    (get_cluster_status baseSys selfNode [] 0 0).ret ≠ SdRes.invalidEpoch :=
  ⟨(fresh_join_sanity_skip { baseSys with status := SdStatus.waitFormat }
      [] 0 0).1 (Or.inl rfl),
   ((fresh_join_sanity_skip baseSys [] 0 0).2 rfl selfNode).2.2.2⟩

/-! ### Claims C5 and C6: join admission. -/

/-- `get_cluster_status` either reports success or leaves the status
out-parameter at the current local status: every branch that rewrites the
status to Ok also returns SD_RES_SUCCESS. -/
lemma get_cluster_status_ret_or_status (st : Sys) (f : SdNode)
    (entries : List SdNode) (ctime epoch : Nat) :
    (get_cluster_status st f entries ctime epoch).ret = SdRes.success ∨
    (get_cluster_status st f entries ctime epoch).status = st.status := by
  unfold get_cluster_status
  by_cases hs : cluster_sanity_check st entries ctime epoch = SdRes.success
  · rw [if_neg (by simp [hs])]
    cases h : st.status <;> simp [h] <;> (try split) <;> (try split) <;> simp
  · rw [if_pos (by simp [hs])]
    right
    rfl

/-- The final switch of `sd_check_join_cb` never yields
CJ_RES_MASTER_TRANSFER. -/
lemma check_join_finish_res_ne (st : Sys) (jm : JoinMessage) :
    (check_join_finish st jm).res ≠ CJRes.masterTransfer := by
  unfold check_join_finish
  cases h : jm.result <;> simp [h]

/-- The final switch of `sd_check_join_cb` keeps the result field of the
message. -/
lemma check_join_finish_result (st : Sys) (jm : JoinMessage) :
    (check_join_finish st jm).jm.result = jm.result := by
  unfold check_join_finish
  cases h : jm.result <;> simp [h]

/-- A successful result makes the final switch return CJ_RES_SUCCESS. -/
lemma check_join_finish_success (st : Sys) (jm : JoinMessage)
    (h : jm.result = SdRes.success) :
    (check_join_finish st jm).res = CJRes.success := by
  unfold check_join_finish
  simp [h]

/-- Claim C5 (amended): for a non-self candidate with matching protocol
version, a non-empty node list and matching ctime, when the local status
is WaitJoin (the only status in which the epoch comparison runs and
recovery is impossible) and the local epoch counter is at least the latest
logged epoch: a candidate epoch strictly below the latest logged epoch
yields CJ_RES_JOIN_LATER with error NewNodeVer, and a candidate epoch
equal to it whose member list differs from the local epoch record (same
length, different content) yields CJ_RES_FAIL with error InvalidEpoch. -/
theorem join_epoch_check_spec (st : Sys) (joining : SdNode) (jm : JoinMessage)
    (hproto : jm.proto_ver = SD_SHEEP_PROTO_VER)
    (hself : node_eq joining st.this_node = false)
    (hne : jm.nodes ≠ [])
    (hct : jm.ctime = st.cluster_ctime)
    (hst : st.status = SdStatus.waitJoin)
    (hep : st.latest_epoch ≤ st.epoch) :
    (jm.epoch < st.latest_epoch →
      (sd_check_join_cb st joining jm).res = CJRes.joinLater ∧
      (sd_check_join_cb st joining jm).jm.result = SdRes.newNodeVer) ∧
    (jm.epoch = st.latest_epoch →
      jm.nodes.length = (st.epochLog jm.epoch).length →
      jm.nodes ≠ st.epochLog jm.epoch →
      (sd_check_join_cb st joining jm).res = CJRes.fail ∧
      (sd_check_join_cb st joining jm).jm.result = SdRes.invalidEpoch) := by
  have h2 : jm.nodes.length ≠ 0 := by simpa using hne
  have h5 : sys_can_recover st = false := by simp [sys_can_recover, hst]
  constructor
  · intro hlt
    have h4 : ¬ st.latest_epoch < jm.epoch := by omega
    have hsan : cluster_sanity_check st jm.nodes jm.ctime jm.epoch =
        SdRes.newNodeVer := by
      simp [cluster_sanity_check, hst, hct, h2, h4, h5, hlt]
    have hgcs : get_cluster_status st joining jm.nodes jm.ctime jm.epoch =
        ⟨SdRes.newNodeVer, st.status, false⟩ := by
      simp [get_cluster_status, hsan]
    have h6 : ¬ st.epoch < jm.epoch := by omega
    constructor <;>
      simp [sd_check_join_cb, hproto, hself, hgcs, h6, check_join_finish]
  · intro heq _hlen hneq
    have h4 : ¬ st.latest_epoch < jm.epoch := by omega
    have h6 : ¬ jm.epoch < st.latest_epoch := by omega
    have hsan : cluster_sanity_check st jm.nodes jm.ctime jm.epoch =
        SdRes.invalidEpoch := by
      simp [cluster_sanity_check, hst, hct, h2, h4, h5, h6, hneq]
    have hgcs : get_cluster_status st joining jm.nodes jm.ctime jm.epoch =
        ⟨SdRes.invalidEpoch, st.status, false⟩ := by
      simp [get_cluster_status, hsan]
    have h7 : ¬ st.epoch < jm.epoch := by omega
    constructor <;>
      simp [sd_check_join_cb, hproto, hself, hgcs, h7, check_join_finish]

/-- Claim C5 counterexample: the claim quantifies over every status
outside {Ok, Halt}, but with local status WaitFormat the sanity check is
skipped entirely: all premises of the claim hold (non-self candidate,
non-empty list, matching ctime, stale epoch), yet the result is
CJ_RES_FAIL with NotFormatted rather than CJ_RES_JOIN_LATER with
NewNodeVer. -/
theorem join_epoch_check_cex :
    sysC5.status ≠ SdStatus.ok ∧ sysC5.status ≠ SdStatus.halt ∧
    node_eq peerA sysC5.this_node = false ∧ jmC5.nodes ≠ [] ∧
    jmC5.ctime = sysC5.cluster_ctime ∧ jmC5.epoch < sysC5.latest_epoch ∧
    (sd_check_join_cb sysC5 peerA jmC5).res = CJRes.fail ∧
    (sd_check_join_cb sysC5 peerA jmC5).jm.result = SdRes.notFormatted := by
  decide

/-- Claim C5 witness: the amended statement evaluated at a WaitJoin state
holding epoch 5 against a stale candidate at epoch 4. -/
theorem join_epoch_check_spec_witness :
    (sd_check_join_cb sysC5w peerA jmC5w).res = CJRes.joinLater ∧
    (sd_check_join_cb sysC5w peerA jmC5w).jm.result = SdRes.newNodeVer :=
  (join_epoch_check_spec sysC5w peerA jmC5w rfl (by decide) (by decide) rfl
    rfl (by decide)).1 (by decide)

/-- Claim C6 (amended): provided the protocol version matches (a version
mismatch returns CJ_RES_FAIL before admission is evaluated),
`sd_check_join_cb` returns CJ_RES_MASTER_TRANSFER for a non-self candidate
exactly when the admission result is a failure, the candidate epoch in the
join message is strictly above the local epoch, and the local status is
WAIT_FOR_JOIN; every other failure goes to the final switch, which only
produces CJ_RES_FAIL or CJ_RES_JOIN_LATER. -/
theorem master_transfer_iff (st : Sys) (joining : SdNode) (jm : JoinMessage)
    (hproto : jm.proto_ver = SD_SHEEP_PROTO_VER)
    (hself : node_eq joining st.this_node = false) :
    (sd_check_join_cb st joining jm).res = CJRes.masterTransfer ↔
      ((sd_check_join_cb st joining jm).jm.result ≠ SdRes.success ∧
        st.epoch < jm.epoch ∧ st.status = SdStatus.waitJoin) := by
  have hor := get_cluster_status_ret_or_status st joining jm.nodes jm.ctime
    jm.epoch
  by_cases h1 : (get_cluster_status st joining jm.nodes jm.ctime jm.epoch).ret
      = SdRes.success ∧
      ¬ (get_cluster_status st joining jm.nodes jm.ctime jm.epoch).status
      = SdStatus.ok
  · simp [sd_check_join_cb, hproto, hself, h1.1, h1.2,
      check_join_finish_result, check_join_finish_success]
  · by_cases h2 : ¬ (get_cluster_status st joining jm.nodes jm.ctime
        jm.epoch).ret = SdRes.success ∧
        st.epoch < jm.epoch ∧
        (get_cluster_status st joining jm.nodes jm.ctime jm.epoch).status
        = SdStatus.waitJoin
    · have hstat : st.status = SdStatus.waitJoin := by
        rcases hor with hor | hor
        · exact absurd hor h2.1
        · rw [← hor]; exact h2.2.2
      simp [sd_check_join_cb, hproto, hself, h1, h2, hstat, h2.1, h2.2.1]
    · have hne2 := check_join_finish_res_ne st
      simp only [sd_check_join_cb, hproto, hself]
      rw [if_neg (by simp [hproto]), if_neg (by simp [hself]), if_neg h1,
        if_neg h2]
      constructor
      · intro hmt
        exact absurd hmt (check_join_finish_res_ne st _)
      · intro hrhs
        rw [check_join_finish_result] at hrhs
        have hret : ¬ (get_cluster_status st joining jm.nodes jm.ctime
            jm.epoch).ret = SdRes.success := by
          simpa using hrhs.1
        apply absurd _ h2
        refine ⟨hret, hrhs.2.1, ?_⟩
        rcases hor with hor | hor
        · exact absurd hor hret
        · rw [hor]
          exact hrhs.2.2

/-- Claim C6 counterexample: a candidate with a mismatched protocol
version, an epoch above the local epoch, against a WaitJoin node.  The
admission result is a failure and all conditions of the claim hold, yet
the callback returns CJ_RES_FAIL, not CJ_RES_MASTER_TRANSFER. -/
theorem master_transfer_cex :
    ¬ ((sd_check_join_cb sysC6 peerA jmC6).res = CJRes.masterTransfer ↔
      ((sd_check_join_cb sysC6 peerA jmC6).jm.result ≠ SdRes.success ∧
        sysC6.epoch < jmC6.epoch ∧ sysC6.status = SdStatus.waitJoin)) := by
  decide

/-- Claim C6 witness: the amended equivalence instantiated at a WaitJoin
node whose admission fails on ctime while the candidate is one epoch
ahead: the callback yields CJ_RES_MASTER_TRANSFER. -/
theorem master_transfer_iff_witness :
    (sd_check_join_cb sysC6 peerA jmC6w).res = CJRes.masterTransfer :=
  (master_transfer_iff sysC6 peerA jmC6w rfl (by decide)).mpr (by decide)

/-! ### Claim C7: join message size. -/

/-- Claim C7 (the code diverges from it): `get_join_message_size` uses
only `nr_nodes`, so on a message with `nr_nodes = 0` and
`nr_leave_nodes = 1` it undercounts by one node slot against the
documented `max(nr_nodes, nr_leave_nodes)` size.  Such a message is
produced by `sd_check_join_cb` itself: a freshly created candidate
(`nr_nodes = 0`) admitted into a WaitJoin cluster with one node in the
leave list gets `nr_leave_nodes = 1` while `nr_nodes` stays 0, violating
the comment in `get_join_message_size` that `nr_nodes` is always the
larger of the two. -/
theorem join_message_size_bug :
    (sd_check_join_cb sysC7 peerA jmC7).res = CJRes.success ∧
    (sd_check_join_cb sysC7 peerA jmC7).jm.nr_nodes = 0 ∧
    (sd_check_join_cb sysC7 peerA jmC7).jm.nr_leave_nodes = 1 ∧
    get_join_message_size (sd_check_join_cb sysC7 peerA jmC7).jm =
      sizeof_join_message ∧
    join_message_size_spec (sd_check_join_cb sysC7 peerA jmC7).jm =
      sizeof_join_message + sizeof_sd_node ∧
    get_join_message_size (sd_check_join_cb sysC7 peerA jmC7).jm ≠
      join_message_size_spec (sd_check_join_cb sysC7 peerA jmC7).jm := by
  decide

/-! ### Claim C9: peer join failure handling. -/

/-- Claim C9 (amended): on a peer join delivered with CJ_RES_FAIL or
CJ_RES_JOIN_LATER, nothing happens unless the local status is
WAIT_FOR_JOIN.  In WaitJoin the peer is added to the leave set iff it
belongs to the latest epoch record and is not already in the leave set;
and only when it was added, the handler compares the local epoch-record
count with the delivered member count plus the new leave-set count, and on
equality sets the status to Ok and persists an epoch-log record for the
current epoch and member view. -/
theorem peer_join_fail_spec (st : Sys) (joined : SdNode) (k : Nat)
    (hpeer : node_eq joined st.this_node = false) :
    (st.status ≠ SdStatus.waitJoin →
      sd_join_handler_fail st joined k =
        ⟨false, st.leave_list, st.status, []⟩) ∧
    (st.status = SdStatus.waitJoin →
      ((find_entry_list joined st.leave_list = true ∨
          find_entry_epoch st joined st.latest_epoch = false) →
        sd_join_handler_fail st joined k =
          ⟨false, st.leave_list, st.status, []⟩) ∧
      ((find_entry_list joined st.leave_list = false ∧
          find_entry_epoch st joined st.latest_epoch = true) →
        (sd_join_handler_fail st joined k).leave_list =
          st.leave_list ++ [joined] ∧
        ((st.epochLog st.epoch).length = k + (st.leave_list.length + 1) →
          (sd_join_handler_fail st joined k).status = SdStatus.ok ∧
          (sd_join_handler_fail st joined k).log_writes =
            [(st.epoch, st.nodes)]) ∧
        ((st.epochLog st.epoch).length ≠ k + (st.leave_list.length + 1) →
          (sd_join_handler_fail st joined k).status = st.status ∧
          (sd_join_handler_fail st joined k).log_writes = []))) := by
  refine ⟨?_, ?_⟩
  · intro h
    simp [sd_join_handler_fail, hpeer, h]
  · intro hst
    refine ⟨?_, ?_⟩
    · intro hcond
      simp [sd_join_handler_fail, hpeer, hst, hcond]
    · rintro ⟨hfl, hfe⟩
      have hcond : ¬ (find_entry_list joined st.leave_list = true ∨
          find_entry_epoch st joined st.latest_epoch = false) := by
        simp [hfl, hfe]
      by_cases hc : (st.epochLog st.epoch).length =
          k + (st.leave_list.length + 1)
      · refine ⟨?_, fun _ => ⟨?_, ?_⟩, fun hnc => absurd hc hnc⟩ <;>
          simp [sd_join_handler_fail, hpeer, hst, hcond, hc,
            List.length_append]
      · refine ⟨?_, fun hcc => absurd hcc hc, fun _ => ⟨?_, ?_⟩⟩ <;>
          simp [sd_join_handler_fail, hpeer, hst, hcond, hc,
            List.length_append]

/-- Claim C9 counterexample: local status Ok (not WaitJoin), peer present
in the latest epoch record and absent from the leave set.  The claimed
biconditional demands the peer be added; the handler leaves the leave set
empty because the whole arm is guarded by `sys_stat_wait_join()`. -/
theorem peer_join_fail_cex :
    node_eq peerB sysC9.this_node = false ∧
    find_entry_epoch sysC9 peerB sysC9.latest_epoch = true ∧
    find_entry_list peerB sysC9.leave_list = false ∧
    sysC9.leave_list = [] ∧
    (sd_join_handler_fail sysC9 peerB 0).leave_list = [] := by
  decide

/-- Claim C9 witness: the amended statement evaluated where the peer is
added and the counts match, flipping the status to Ok and writing the
epoch log. -/
theorem peer_join_fail_spec_witness :
    (sd_join_handler_fail sysC9w peerA 0).leave_list =
      sysC9w.leave_list ++ [peerA] ∧
    (sd_join_handler_fail sysC9w peerA 0).status = SdStatus.ok :=
  have h := ((peer_join_fail_spec sysC9w peerA 0 (by decide)).2 rfl).2
    (by decide)
  ⟨h.1, (h.2.1 (by decide)).1⟩

/-! ### Claim C2: zone counting. -/

/-- The zone scan extends the accumulated zone list to exactly
`min(card(accumulated ∪ fresh zones), SD_MAX_REDUNDANCY)` entries, as long
as the accumulator is duplicate-free and below the cap. -/
lemma zonesScan_length (l : List SdNode) :
    ∀ zones : List Nat, zones.Nodup → zones.length < SD_MAX_REDUNDANCY →
      (zonesScan l zones).length =
        min (zones.toFinset ∪
          ((l.filter (fun n => n.nr_vnodes != 0)).map
            (fun n => n.zone)).toFinset).card SD_MAX_REDUNDANCY := by
  induction l with
  | nil =>
    intro zones hnd hlt
    simp only [zonesScan, List.filter_nil, List.map_nil, List.toFinset_nil,
      Finset.union_empty]
    rw [List.toFinset_card_of_nodup hnd]
    omega
  | cons n rest ih =>
    intro zones hnd hlt
    by_cases h0 : n.nr_vnodes = 0
    · simp only [zonesScan, if_pos h0]
      rw [ih zones hnd hlt]
      have hfe : List.filter (fun n => n.nr_vnodes != 0) (n :: rest) =
          List.filter (fun n => n.nr_vnodes != 0) rest := by
        simp [List.filter_cons, h0]
      rw [hfe]
    · have hft : (n.nr_vnodes != 0) = true := by simp [h0]
      have hfc : List.filter (fun n => n.nr_vnodes != 0) (n :: rest) =
          n :: List.filter (fun n => n.nr_vnodes != 0) rest := by
        simp [List.filter_cons, hft]
      by_cases hz : n.zone ∈ zones
      · simp only [zonesScan, if_neg h0, if_pos hz]
        rw [ih zones hnd hlt]
        have hset : zones.toFinset ∪
            ((List.filter (fun n => n.nr_vnodes != 0) rest).map
              (fun n => n.zone)).toFinset =
            zones.toFinset ∪
            (((n :: rest).filter (fun n => n.nr_vnodes != 0)).map
              (fun n => n.zone)).toFinset := by
          rw [hfc]
          ext a
          simp only [List.map_cons, List.toFinset_cons, Finset.mem_union,
            Finset.mem_insert, List.mem_toFinset]
          constructor
          · rintro (h | h)
            · exact Or.inl h
            · exact Or.inr (Or.inr h)
          · rintro (h | h | h)
            · exact Or.inl h
            · exact Or.inl (h ▸ hz)
            · exact Or.inr h
        rw [← hset]
      · by_cases hcap : zones.length + 1 = SD_MAX_REDUNDANCY
        · simp only [zonesScan, if_neg h0, if_neg hz, if_pos hcap]
          rw [List.length_append]
          have hzn : n.zone ∉ zones.toFinset := by simpa using hz
          have hsub : insert n.zone zones.toFinset ⊆ zones.toFinset ∪
              (((n :: rest).filter (fun n => n.nr_vnodes != 0)).map
                (fun n => n.zone)).toFinset := by
            intro a ha
            rcases Finset.mem_insert.mp ha with h | h
            · subst h
              apply Finset.mem_union_right
              rw [hfc]
              simp
            · exact Finset.mem_union_left _ h
          have hcard : SD_MAX_REDUNDANCY ≤ (zones.toFinset ∪
              (((n :: rest).filter (fun n => n.nr_vnodes != 0)).map
                (fun n => n.zone)).toFinset).card := by
            calc SD_MAX_REDUNDANCY = zones.length + 1 := hcap.symm
              _ = zones.toFinset.card + 1 := by
                  rw [List.toFinset_card_of_nodup hnd]
              _ = (insert n.zone zones.toFinset).card :=
                  (Finset.card_insert_of_not_mem hzn).symm
              _ ≤ _ := Finset.card_le_card hsub
          simp only [List.length_singleton]
          omega
        · simp only [zonesScan, if_neg h0, if_neg hz, if_neg hcap]
          have hnd2 : (zones ++ [n.zone]).Nodup := by
            rw [List.nodup_append]
            refine ⟨hnd, List.nodup_singleton _, ?_⟩
            intro a ha hb
            rw [List.mem_singleton] at hb
            exact hz (hb ▸ ha)
          have hlt2 : (zones ++ [n.zone]).length < SD_MAX_REDUNDANCY := by
            rw [List.length_append, List.length_singleton]
            omega
          rw [ih (zones ++ [n.zone]) hnd2 hlt2]
          have hset : (zones ++ [n.zone]).toFinset ∪
              ((List.filter (fun n => n.nr_vnodes != 0) rest).map
                (fun n => n.zone)).toFinset =
              zones.toFinset ∪
              (((n :: rest).filter (fun n => n.nr_vnodes != 0)).map
                (fun n => n.zone)).toFinset := by
            rw [hfc]
            ext a
            simp only [List.toFinset_append, List.map_cons,
              List.toFinset_cons, Finset.mem_union, Finset.mem_insert,
              List.mem_toFinset, List.toFinset_cons, Finset.mem_insert,
              List.toFinset_nil, Finset.not_mem_empty, or_false]
            tauto
          rw [hset]

/-- Claim C2 (amended): `get_zones_nr_from` returns the number of distinct
zones among data-holding members capped at SD_MAX_REDUNDANCY; in
particular a list of pure gateways yields 0. -/
theorem zones_nr_spec :
    ∀ nodes : List SdNode,
      get_zones_nr_from nodes =
        min (distinctZonesNr nodes) SD_MAX_REDUNDANCY ∧
      ((∀ n ∈ nodes, n.nr_vnodes = 0) → get_zones_nr_from nodes = 0) := by
  intro nodes
  have h := zonesScan_length nodes [] (List.nodup_nil)
    (by simp [SD_MAX_REDUNDANCY])
  have h1 : get_zones_nr_from nodes =
      min (distinctZonesNr nodes) SD_MAX_REDUNDANCY := by
    simpa [get_zones_nr_from, distinctZonesNr] using h
  refine ⟨h1, ?_⟩
  intro hall
  have hf : nodes.filter (fun n => n.nr_vnodes != 0) = [] := by
    rw [List.filter_eq_nil_iff]
    intro n hn
    simp [hall n hn]
  rw [h1]
  simp [distinctZonesNr, hf]

/-- Claim C2 counterexample: nine data-holding members in nine distinct
zones.  The scan stops at the scratch array capacity and reports 8, not
the 9 distinct zones the claim demands for every member list. -/
theorem zones_nr_cap_cex :
    distinctZonesNr cexNodes9 = 9 ∧
    get_zones_nr_from cexNodes9 = 8 ∧
    get_zones_nr_from cexNodes9 ≠ distinctZonesNr cexNodes9 := by
  decide

/-- Claim C2 witness: the amended statement evaluated at a pure-gateway
list (result 0) and at the nine-zone list (result capped at 8). -/
theorem zones_nr_spec_witness :
    get_zones_nr_from [⟨[0], 0, 0, 5⟩] = 0 ∧
    get_zones_nr_from cexNodes9 =
      min (distinctZonesNr cexNodes9) SD_MAX_REDUNDANCY :=
  ⟨(zones_nr_spec [⟨[0], 0, 0, 5⟩]).2 (by decide),
   (zones_nr_spec cexNodes9).1⟩

/-! ### Claim C1: event serialization. -/

/-- Draining the request queue preserves the invariant when no event is
running (the only fields it touches are the request queue and the
outstanding-I/O counter). -/
lemma einv_process_request_queue (s : EState) (h : s.event_running = false)
    (hinv : EInv s) : EInv (process_request_queue s) := by
  refine ⟨?_, hinv.2.1, ?_⟩
  · show s.event_running = true ↔ s.running_events ≠ []
    exact hinv.1
  · intro hr
    rw [show (process_request_queue s).event_running = s.event_running
      from rfl, h] at hr
    cases hr

/-- Dispatch preserves the invariant: an event is handed to the worker
only when the running flag is down and no I/O is outstanding. -/
lemma einv_process_event_queue (s : EState) (hinv : EInv s) :
    EInv (process_event_queue s) := by
  unfold process_event_queue
  by_cases hg : s.event_running = true ∨ s.nr_outstanding_io ≠ 0
  · rw [if_pos hg]
    exact hinv
  · rw [if_neg hg]
    push_neg at hg
    have hrf : s.event_running = false := by
      cases hb : s.event_running
      · rfl
      · exact absurd hb hg.1
    have hre : s.running_events = [] := by
      by_contra hne
      exact absurd (hinv.1.mpr hne) hg.1
    cases he : s.event_queue with
    | nil => exact hinv
    | cons e rest =>
      refine ⟨?_, ?_, ?_⟩ <;> simp [hre, hg.2]

/-- Re-evaluating the queues preserves the invariant, provided the running
flag is down whenever the event queue is empty (so a drain cannot start
I/O under a running event). -/
lemma einv_process_request_event_queues (s : EState) (hinv : EInv s)
    (h : s.event_queue = [] → s.event_running = false) :
    EInv (process_request_event_queues s) := by
  unfold process_request_event_queues
  by_cases he : s.event_queue = []
  · rw [if_pos he]
    exact einv_process_request_queue s (h he) hinv
  · rw [if_neg he]
    exact einv_process_event_queue s hinv

/-- Every serializer step preserves the invariant. -/
lemma einv_step {s t : EState} (hinv : EInv s) (hst : EStep s t) : EInv t := by
  cases hst with
  | deliver_event e =>
    apply einv_process_request_event_queues
    · exact hinv
    · intro hq
      exfalso
      have : s.event_queue ++ [e] = [] := hq
      simp at this
  | client_request k =>
    exact hinv
  | io_done h =>
    have hrf : s.event_running = false := by
      cases hb : s.event_running
      · rfl
      · exact absurd (hinv.2.2 hb) h
    apply einv_process_request_event_queues
    · refine ⟨hinv.1, hinv.2.1, ?_⟩
      intro hr
      exact absurd (hr.symm.trans hrf) (by simp)
    · intro _
      exact hrf
  | work_done h =>
    unfold event_done
    have hd : s.running_events.drop 1 = [] :=
      List.drop_eq_nil_of_le hinv.2.1
    apply einv_process_request_event_queues
    · refine ⟨?_, ?_, ?_⟩
      · show (false = true ↔ s.running_events.drop 1 ≠ [])
        simp [hd]
      · show (s.running_events.drop 1).length ≤ 1
        simp [hd]
      · intro hf
        cases hf
    · intro _
      rfl

/-- Every reachable serializer state satisfies the invariant. -/
lemma einv_reachable {s : EState} (h : EReachable s) : EInv s := by
  induction h with
  | init => exact ⟨by simp [EInit], by simp [EInit], by simp [EInit]⟩
  | step _ hst ih => exact einv_step ih hst

/-- Claim C1: `process_request_event_queues` dispatches an event only when
no handler is running and no object I/O is outstanding (the guard of
`process_event_queue` makes it a no-op otherwise); consequently along
every sequence of enqueue, dispatch, I/O-completion and event-completion
steps at most one event executes at a time and none executes while
outstanding I/O exists; and the client request queue is drained only when
the event queue is empty (a non-empty event queue leaves the request
queue and the I/O counter untouched). -/
theorem event_queue_serialization :
    (∀ s : EState, EReachable s →
      s.running_events.length ≤ 1 ∧
      (s.running_events ≠ [] → s.nr_outstanding_io = 0)) ∧
    (∀ s : EState, (s.event_running = true ∨ s.nr_outstanding_io ≠ 0) →
      process_event_queue s = s) ∧
    (∀ s : EState, s.event_queue ≠ [] →
      (process_request_event_queues s).request_queue = s.request_queue ∧
      (process_request_event_queues s).nr_outstanding_io =
        s.nr_outstanding_io) := by
  refine ⟨?_, ?_, ?_⟩
  · intro s hr
    have h := einv_reachable hr
    exact ⟨h.2.1, fun hne => h.2.2 (h.1.mpr hne)⟩
  · intro s hg
    unfold process_event_queue
    rw [if_pos hg]
  · intro s hne
    unfold process_request_event_queues
    rw [if_neg hne]
    unfold process_event_queue
    by_cases hg : s.event_running = true ∨ s.nr_outstanding_io ≠ 0
    · rw [if_pos hg]
      exact ⟨rfl, rfl⟩
    · rw [if_neg hg]
      cases he : s.event_queue with
      | nil => exact ⟨rfl, rfl⟩
      | cons e rest => exact ⟨rfl, rfl⟩

/-- Claim C1 witness: the three parts evaluated at concrete states: the
state reached by delivering one event from the initial state (one running
event, no outstanding I/O), a state with the running flag up (dispatch is
a no-op), and a state with a queued event (request queue untouched). -/
theorem event_queue_serialization_witness :
    ((process_request_event_queues
        { EInit with event_queue := [7] }).running_events.length ≤ 1 ∧
      ((process_request_event_queues
          { EInit with event_queue := [7] }).running_events ≠ [] →
        (process_request_event_queues
          { EInit with event_queue := [7] }).nr_outstanding_io = 0)) ∧
    process_event_queue { EInit with event_running := true } =
      { EInit with event_running := true } ∧
    (process_request_event_queues
        { EInit with event_queue := [7] }).request_queue =
      ({ EInit with event_queue := [7] } : EState).request_queue :=
  ⟨event_queue_serialization.1 _
      (EReachable.step EReachable.init (EStep.deliver_event EInit 7)),
   event_queue_serialization.2.1 { EInit with event_running := true }
      (Or.inl rfl),
   (event_queue_serialization.2.2 { EInit with event_queue := [7] }
      (by decide)).1⟩

end SheepdogGroup
